import Mathlib

/-!
# Signet chain-signatures program: shallow embedding and verification

A shallow embedding of the Solana `chain_signatures` program
(`programs/signet/src/lib.rs` and `programs/signet/src/evm.rs`) and proofs of
the behavioural properties stated in its specification.

Modelling conventions:
* a `Pubkey` is a natural number; `0` plays the role of `Pubkey::default()`
  (the zero address);
* byte strings (`[u8; 32]`, `Vec<u8>`, the bytes of Rust strings) are
  `List Nat` whose elements are intended `< 256`;
* lamport balances are `Nat`; the balance of the `program_state` PDA (the
  pool) is kept in a dedicated field since a PDA can never be a signer;
* each Anchor instruction handler becomes a total function returning
  `Except ChainSignaturesError (Chain × List Event)`: an `.error` result
  models the aborted transaction (no state change, no events emitted), as
  Solana's runtime discards every effect of a failed instruction;
* Anchor account constraints that run before the handler body
  (`has_one = admin`) are modelled as the first check of the function.
-/

namespace Signet

/-- A Solana public key, modelled as a natural number.  `0` stands for
`Pubkey::default()`, the all-zero key. -/
abbrev Pubkey := Nat

/-- A point on the secp256k1 curve in affine coordinates
(`AffinePoint { x: [u8; 32], y: [u8; 32] }`). -/
structure AffinePoint where
  x : List Nat
  y : List Nat
deriving DecidableEq, Repr

/-- ECDSA signature in affine representation
(`Signature { big_r, s, recovery_id }`). -/
structure Signature where
  big_r : AffinePoint
  s : List Nat
  recovery_id : Nat
deriving DecidableEq, Repr

instance : Inhabited Signature :=
  ⟨{ big_r := { x := [], y := [] }, s := [], recovery_id := 0 }⟩

/-- Error information for failed signature requests (`ErrorResponse`). -/
structure ErrorResponse where
  request_id : List Nat
  error_message : String
deriving DecidableEq, Repr

/-- The program's error enum `ChainSignaturesError`. -/
inductive ChainSignaturesError where
  | InsufficientDeposit
  | InvalidInputLength
  | Unauthorized
  | InsufficientFunds
  | InvalidRecipient
  | InvalidTransaction
  | MissingInstructionSysvar
deriving DecidableEq, Repr

/-- The persistent program configuration (`ProgramState` account). -/
structure ProgramState where
  admin : Pubkey
  signature_deposit : Nat
  chain_id : String
deriving DecidableEq, Repr

/-- The events the program can emit (`#[event]` structs), with the field
tuples of the source. -/
inductive Event where
  | DepositUpdated (old_deposit new_deposit : Nat)
  | FundsWithdrawn (amount : Nat) (recipient : Pubkey)
  | SignatureRequested (sender : Pubkey) (payload : List Nat) (key_version : Nat)
      (deposit : Nat) (chain_id path algo dest params : String)
      (fee_payer : Option Pubkey)
  | SignBidirectional (sender : Pubkey) (serialized_transaction : List Nat)
      (caip2_id : String) (key_version deposit : Nat)
      (path algo dest params : String) (program_id : Pubkey)
      (output_deserialization_schema respond_serialization_schema : List Nat)
  | SignatureResponded (request_id : List Nat) (responder : Pubkey)
      (signature : Signature)
  | SignatureError (request_id : List Nat) (responder : Pubkey) (error : String)
  | RespondBidirectional (request_id : List Nat) (responder : Pubkey)
      (serialized_output : List Nat) (signature : Signature)
deriving DecidableEq

/-- Full on-chain state relevant to the program: the configuration account,
the lamports held by the `program_state` PDA (the pool), and the lamports of
every other account. -/
structure Chain where
  programState : ProgramState
  poolLamports : Nat
  lamports : Pubkey → Nat

/-- Instruction `initialize`: creates the program state PDA.  Anchor's `init` constraint
makes this possible exactly once, so it is the starting point of every run
rather than a repeatable instruction.  (The source name is not a legal Lean identifier.) -/
def initializeProgram (admin : Pubkey) (signature_deposit : Nat) (chain_id : String)
    (pool : Nat) (lamports : Pubkey → Nat) : Chain :=
  { programState :=
      { admin := admin, signature_deposit := signature_deposit, chain_id := chain_id }
    poolLamports := pool
    lamports := lamports }

/-- Instruction `update_deposit`: admin only (the `has_one = admin` constraint of
`AdminOnly`); replaces `signature_deposit` and emits `DepositUpdatedEvent`. -/
def update_deposit (c : Chain) (caller : Pubkey) (new_deposit : Nat) :
    Except ChainSignaturesError (Chain × List Event) :=
  if caller ≠ c.programState.admin then
    .error .Unauthorized
  else
    let old_deposit := c.programState.signature_deposit
    .ok ({ c with programState := { c.programState with signature_deposit := new_deposit } },
         [.DepositUpdated old_deposit new_deposit])

/-- Instruction `withdraw_funds`: admin only; requires the pool to cover `amount`
(`InsufficientFunds`), then a non-zero recipient (`InvalidRecipient`), in that
order, then moves `amount` lamports from the pool to the recipient and emits
`FundsWithdrawnEvent`. -/
def withdraw_funds (c : Chain) (caller recipient : Pubkey) (amount : Nat) :
    Except ChainSignaturesError (Chain × List Event) :=
  if caller ≠ c.programState.admin then
    .error .Unauthorized
  else if ¬ c.poolLamports ≥ amount then
    .error .InsufficientFunds
  else if ¬ recipient ≠ (0 : Pubkey) then
    .error .InvalidRecipient
  else
    .ok ({ c with
            poolLamports := c.poolLamports - amount
            lamports := fun k => if k = recipient then c.lamports k + amount else c.lamports k },
         [.FundsWithdrawn amount recipient])

/-- Resolution of the paying account: the optional `fee_payer` when supplied,
otherwise the requester (the `match &ctx.accounts.fee_payer` of the source). -/
def payerOf (fee_payer : Option Pubkey) (requester : Pubkey) : Pubkey :=
  match fee_payer with
  | some fp => fp
  | none => requester

/-- Instruction `sign`: requires the payer to hold at least `signature_deposit`
(`InsufficientDeposit`), transfers exactly `signature_deposit` lamports from
the payer to the pool and emits `SignatureRequestedEvent`. -/
def sign (c : Chain) (requester : Pubkey) (fee_payer : Option Pubkey)
    (payload : List Nat) (key_version : Nat) (path algo dest params : String) :
    Except ChainSignaturesError (Chain × List Event) :=
  let payer := payerOf fee_payer requester
  if ¬ c.lamports payer ≥ c.programState.signature_deposit then
    .error .InsufficientDeposit
  else
    .ok ({ c with
            poolLamports := c.poolLamports + c.programState.signature_deposit
            lamports := fun k =>
              if k = payer then c.lamports k - c.programState.signature_deposit
              else c.lamports k },
         [.SignatureRequested requester payload key_version
            c.programState.signature_deposit c.programState.chain_id
            path algo dest params fee_payer])

/-- Instruction `sign_bidirectional`: requires the payer to hold the deposit
(`InsufficientDeposit`), then a non-empty `serialized_transaction`
(`InvalidTransaction`), in that order; transfers exactly `signature_deposit`
lamports from the payer to the pool and emits `SignBidirectionalEvent`. -/
def sign_bidirectional (c : Chain) (requester : Pubkey) (fee_payer : Option Pubkey)
    (serialized_transaction : List Nat) (caip2_id : String) (key_version : Nat)
    (path algo dest params : String) (program_id : Pubkey)
    (output_deserialization_schema respond_serialization_schema : List Nat) :
    Except ChainSignaturesError (Chain × List Event) :=
  let payer := payerOf fee_payer requester
  if ¬ c.lamports payer ≥ c.programState.signature_deposit then
    .error .InsufficientDeposit
  else if ¬ ¬ serialized_transaction.isEmpty then
    .error .InvalidTransaction
  else
    .ok ({ c with
            poolLamports := c.poolLamports + c.programState.signature_deposit
            lamports := fun k =>
              if k = payer then c.lamports k - c.programState.signature_deposit
              else c.lamports k },
         [.SignBidirectional requester serialized_transaction caip2_id key_version
            c.programState.signature_deposit path algo dest params program_id
            output_deserialization_schema respond_serialization_schema])

/-- Instruction `respond`: requires `request_ids.len() == signatures.len()`
(`InvalidInputLength`), then emits one `SignatureRespondedEvent` per index
`i` in `0..request_ids.len()`, in order. -/
def respond (c : Chain) (responder : Pubkey) (request_ids : List (List Nat))
    (signatures : List Signature) :
    Except ChainSignaturesError (Chain × List Event) :=
  if ¬ request_ids.length = signatures.length then
    .error .InvalidInputLength
  else
    .ok (c, List.zipWith
          (fun rid sig => Event.SignatureResponded rid responder sig)
          request_ids signatures)

/-- Instruction `respond_error`: emits one `SignatureErrorEvent` per entry; never fails. -/
def respond_error (c : Chain) (responder : Pubkey) (errors : List ErrorResponse) :
    Except ChainSignaturesError (Chain × List Event) :=
  .ok (c, errors.map fun e => .SignatureError e.request_id responder e.error_message)

/-- Instruction `get_signature_deposit`: view function returning the current deposit. -/
def get_signature_deposit (c : Chain) : Nat :=
  c.programState.signature_deposit

/-- Instruction `respond_bidirectional`: emits one `RespondBidirectionalEvent`; never
fails. -/
def respond_bidirectional (c : Chain) (responder : Pubkey) (request_id : List Nat)
    (serialized_output : List Nat) (signature : Signature) :
    Except ChainSignaturesError (Chain × List Event) :=
  .ok (c, [.RespondBidirectional request_id responder serialized_output signature])

/-- The instructions callable after initialization, with their caller/signer
accounts made explicit. -/
inductive Instr where
  | updateDeposit (caller : Pubkey) (new_deposit : Nat)
  | withdrawFunds (caller recipient : Pubkey) (amount : Nat)
  | signReq (requester : Pubkey) (fee_payer : Option Pubkey) (payload : List Nat)
      (key_version : Nat) (path algo dest params : String)
  | signBidirectionalReq (requester : Pubkey) (fee_payer : Option Pubkey)
      (serialized_transaction : List Nat) (caip2_id : String) (key_version : Nat)
      (path algo dest params : String) (program_id : Pubkey)
      (output_deserialization_schema respond_serialization_schema : List Nat)
  | respondIx (responder : Pubkey) (request_ids : List (List Nat))
      (signatures : List Signature)
  | respondErrorIx (responder : Pubkey) (errors : List ErrorResponse)
  | respondBidirectionalIx (responder : Pubkey) (request_id : List Nat)
      (serialized_output : List Nat) (signature : Signature)

/-- Dispatch one instruction. -/
def execIx (c : Chain) : Instr → Except ChainSignaturesError (Chain × List Event)
  | .updateDeposit caller d => update_deposit c caller d
  | .withdrawFunds caller r a => withdraw_funds c caller r a
  | .signReq rq fp pl kv p al d pr => sign c rq fp pl kv p al d pr
  | .signBidirectionalReq rq fp tx cid kv p al d pr pid os rs =>
      sign_bidirectional c rq fp tx cid kv p al d pr pid os rs
  | .respondIx rsp ids sigs => respond c rsp ids sigs
  | .respondErrorIx rsp errs => respond_error c rsp errs
  | .respondBidirectionalIx rsp rid out sig =>
      respond_bidirectional c rsp rid out sig

/-- The state after one instruction: a failed instruction leaves the chain
untouched (Solana discards all effects of a failed transaction). -/
def step (c : Chain) (i : Instr) : Chain :=
  match execIx c i with
  | .ok (c', _) => c'
  | .error _ => c

/-- The events one instruction emits: a failed instruction emits none. -/
def eventsOf (c : Chain) (i : Instr) : List Event :=
  match execIx c i with
  | .ok (_, evs) => evs
  | .error _ => []

/-- The state after a sequence of instructions. -/
def run (c : Chain) (is : List Instr) : Chain :=
  is.foldl step c

/-! ## Outcome encoding

The 4-byte magic marker `[0xde, 0xad, 0xbe, 0xef]` at the start of a
response output signals failure of the remote transaction.  Two reference
classifiers appear in the repository's documentation: `is_error` in
`lib.rs` (Rust `output.starts_with(&magic)`) and `is_error_response` in
`evm.rs` (`output.len() >= 4 && output[..4] == magic`). -/

/-- The failure marker bytes (`MAGIC_ERROR_PREFIX` / `ERROR_PREFIX` in the
source; the source names are avoided here). -/
def MAGIC_ERROR : List Nat := [0xde, 0xad, 0xbe, 0xef]

/-- Rust slice `starts_with`: the needle is an initial segment of the
haystack. -/
def starts_with (output needle : List Nat) : Bool :=
  output.take needle.length == needle

/-- Classifier `is_error` from the `lib.rs` documentation:
`output.starts_with(&[0xde, 0xad, 0xbe, 0xef])`. -/
def is_error (output : List Nat) : Bool :=
  starts_with output MAGIC_ERROR

/-- Classifier `is_error_response` from the `evm.rs` documentation:
`output.len() >= 4 && output[..4] == ERROR_PREFIX`. -/
def is_error_response (output : List Nat) : Bool :=
  decide (4 ≤ output.length) && (output.take 4 == MAGIC_ERROR)

/-! ## Request identifier

`generate_request_id` (documented reference implementation in `evm.rs`):
keccak256 over the packed ABI encoding of
`(sender.to_string(), transaction_data, caip2_id, key_version, path, algo,
dest, params)`.  Packed encoding concatenates the raw bytes of each string
or byte-slice field with no length framing and encodes the `u32`
`key_version` as 4 big-endian bytes.  The keccak-256 permutation is
embedded below, faithful to the standard algorithm used by
`solana_program::keccak`. -/

/-- Big-endian byte encoding of a `u32` (packed ABI encoding of the
`key_version` field). -/
def u32be (n : Nat) : List Nat :=
  [n / 2 ^ 24 % 256, n / 2 ^ 16 % 256, n / 2 ^ 8 % 256, n % 256]

/-- The packed ABI encoding `(sender, transaction_data, caip2_id,
key_version, path, algo, dest, params).abi_encode_packed()`: raw
concatenation in field order.  String fields are their UTF-8 bytes;
`sender` is the base58 rendering of the pubkey (`sender.to_string()`),
taken here as an opaque byte list. -/
def encodeRequest (sender transaction_data caip2_id : List Nat) (key_version : Nat)
    (path algo dest params : List Nat) : List Nat :=
  sender ++ transaction_data ++ caip2_id ++ u32be key_version ++
    path ++ algo ++ dest ++ params

/-- Left-rotation of a 64-bit lane by `n` bits (`0 ≤ n < 64`). -/
def rotl64 (x n : Nat) : Nat :=
  x % 2 ^ (64 - n) * 2 ^ n + x / 2 ^ (64 - n)

/-- Lane `(x, y)` of a keccak state held as a flat 25-element list. -/
def lane (st : List Nat) (x y : Nat) : Nat :=
  st.getD (x + 5 * y) 0

/-- Keccak θ step. -/
def theta (st : List Nat) : List Nat :=
  let c := fun x => Nat.xor (lane st x 0) (Nat.xor (lane st x 1)
    (Nat.xor (lane st x 2) (Nat.xor (lane st x 3) (lane st x 4))))
  let d := fun x => Nat.xor (c ((x + 4) % 5)) (rotl64 (c ((x + 1) % 5)) 1)
  (List.range 25).map fun i => Nat.xor (st.getD i 0) (d (i % 5))

/-- The ρ rotation offsets, indexed by `x + 5 * y`, generated by the
standard walk of FIPS 202: starting from lane `(1, 0)`, step `t` assigns
offset `(t+1)(t+2)/2 mod 64` and moves to `(y, 2x + 3y mod 5)`; lane `(0,0)`
keeps offset `0`. -/
def rhoOffsets : List Nat :=
  ((List.range 24).foldl
    (fun (acc : List Nat × Nat × Nat) t =>
      let offs := acc.1
      let x := acc.2.1
      let y := acc.2.2
      (offs.set (x + 5 * y) ((t + 1) * (t + 2) / 2 % 64), y, (2 * x + 3 * y) % 5))
    (List.replicate 25 0, 1, 0)).1

/-- Keccak ρ and π steps combined: the destination lane `(X, Y)` receives
the rotated source lane `((X + 3Y) % 5, X)`. -/
def rhoPi (st : List Nat) : List Nat :=
  (List.range 25).map fun j =>
    let bigX := j % 5
    let bigY := j / 5
    let x := (bigX + 3 * bigY) % 5
    let y := bigX
    rotl64 (lane st x y) (rhoOffsets.getD (x + 5 * y) 0)

/-- Keccak χ step. -/
def chi (st : List Nat) : List Nat :=
  (List.range 25).map fun j =>
    let x := j % 5
    let y := j / 5
    Nat.xor (lane st x y)
      (Nat.land (Nat.xor (lane st ((x + 1) % 5) y) (2 ^ 64 - 1))
        (lane st ((x + 2) % 5) y))

/-- One step of the 8-bit LFSR of FIPS 202 (polynomial
`x^8 + x^6 + x^5 + x^4 + 1`, byte form: shift left and reduce by `0x171`
when the ninth bit is set). -/
def rcStep (r : Nat) : Nat :=
  if r * 2 ≥ 256 then Nat.xor (r * 2) 0x171 else r * 2

/-- The LFSR register after `t` steps, starting from `1`. -/
def rcReg : Nat → Nat
  | 0 => 1
  | t + 1 => rcStep (rcReg t)

/-- Bit `rc(t)` of FIPS 202: the low bit of the LFSR register. -/
def rcBit (t : Nat) : Nat :=
  rcReg t % 2

/-- Round constant of round `ir`: bit `rc(j + 7 ir)` is placed at position
`2 ^ j - 1` for `j = 0, …, 6`. -/
def roundConstant (ir : Nat) : Nat :=
  (List.range 7).foldl (fun acc j => acc + rcBit (j + 7 * ir) * 2 ^ (2 ^ j - 1)) 0

/-- The 24 keccak-f[1600] round constants. -/
def roundConstants : List Nat :=
  (List.range 24).map roundConstant

/-- One keccak round: θ, ρπ, χ, then ι (xor the round constant into lane
`(0,0)`). -/
def keccakRound (st : List Nat) (rc : Nat) : List Nat :=
  let st3 := chi (rhoPi (theta st))
  (List.range 25).map fun j =>
    if j = 0 then Nat.xor (st3.getD 0 0) rc else st3.getD j 0

/-- The keccak-f[1600] permutation: 24 rounds. -/
def keccakF (st : List Nat) : List Nat :=
  roundConstants.foldl keccakRound st

/-- A 64-bit lane from 8 little-endian bytes. -/
def bytesToLane (bs : List Nat) : Nat :=
  bs.foldr (fun b acc => b + 256 * acc) 0

/-- The 8 little-endian bytes of a 64-bit lane. -/
def laneBytes (v : Nat) : List Nat :=
  (List.range 8).map fun k => v / 2 ^ (8 * k) % 256

/-- The 17 lanes of a 136-byte rate block, little-endian per lane. -/
def blockLanes (block : List Nat) : List Nat :=
  (List.range 17).map fun i => bytesToLane ((block.drop (8 * i)).take 8)

/-- Xor a 136-byte block into the first 17 lanes of the state. -/
def xorBlock (st block : List Nat) : List Nat :=
  List.zipWith Nat.xor st (blockLanes block ++ List.replicate 8 0)

/-- Absorb a padded message (length a positive multiple of 136) block by
block. -/
def absorb : List Nat → List Nat → List Nat
  | st, [] => st
  | st, b :: rest =>
      absorb (keccakF (xorBlock st ((b :: rest).take 136))) ((b :: rest).drop 136)
termination_by _ msg => msg.length
decreasing_by
  simp only [List.length_drop, List.length_cons]
  omega

/-- Keccak padding (`pad10*1` with the original keccak domain byte `0x01`)
to a multiple of the 136-byte rate. -/
def keccakPad (msg : List Nat) : List Nat :=
  let padLen := 136 - msg.length % 136
  if padLen = 1 then msg ++ [0x81]
  else msg ++ [0x01] ++ List.replicate (padLen - 2) 0 ++ [0x80]

/-- keccak-256 of a byte list: absorb the padded message into the all-zero
state, squeeze the first 32 bytes (4 lanes). -/
def keccak256 (msg : List Nat) : List Nat :=
  let st := absorb (List.replicate 25 0) (keccakPad msg)
  ((List.range 4).map fun i => laneBytes (st.getD i 0)).flatten

/-- Function `generate_request_id` (reference implementation documented in `evm.rs`):
keccak256 of the packed encoding of the request's field tuple. -/
def generate_request_id (sender transaction_data caip2_id : List Nat)
    (key_version : Nat) (path algo dest params : List Nat) : List Nat :=
  keccak256 (encodeRequest sender transaction_data caip2_id key_version
    path algo dest params)

/-- A concrete initialized chain used to instantiate universally quantified
theorems: admin `1`, deposit `30` lamports, pool `50` lamports, every other
account holding `100` lamports. -/
def demoChain : Chain :=
  { programState := { admin := 1, signature_deposit := 30, chain_id := "solana:mainnet" }
    poolLamports := 50
    lamports := fun _ => 100 }

/-- A concrete chain whose accounts hold fewer lamports (`10`) than the
required deposit (`30`). -/
def poorChain : Chain :=
  { programState := { admin := 1, signature_deposit := 30, chain_id := "solana:mainnet" }
    poolLamports := 50
    lamports := fun _ => 10 }

/-- A concrete signature literal for instantiations. -/
def demoSigA : Signature :=
  { big_r := { x := [1], y := [2] }, s := [3], recovery_id := 0 }

/-- A second, distinct concrete signature literal. -/
def demoSigB : Signature :=
  { big_r := { x := [4], y := [5] }, s := [6], recovery_id := 1 }

/-! ## Helper lemmas -/

/-- Cancel a common prefix and suffix around differing middles. -/
theorem append_middle_ne {x y : List Nat} (a b : List Nat) (h : x ≠ y) :
    a ++ (x ++ b) ≠ a ++ (y ++ b) := fun heq =>
  h (List.append_cancel_right (List.append_cancel_left heq))

/-- Encoding `u32be` is injective on values below `2 ^ 32`. -/
theorem u32be_inj {k k' : Nat} (hk : k < 2 ^ 32) (hk' : k' < 2 ^ 32)
    (h : u32be k = u32be k') : k = k' := by
  simp only [u32be, List.cons.injEq, and_true] at h
  omega

/-- Indexing a `zipWith` of equal-length lists. -/
theorem getD_zipWith {α β γ : Type} (f : α → β → γ) (da : α) (db : β) (dc : γ) :
    ∀ (as : List α) (bs : List β) (i : Nat), i < as.length → as.length = bs.length →
      (List.zipWith f as bs).getD i dc = f (as.getD i da) (bs.getD i db)
  | [], _, _, h, _ => absurd h (by simp)
  | _ :: _, [], _, _, hlen => absurd hlen (by simp)
  | _ :: _, _ :: _, 0, _, _ => rfl
  | _ :: as, _ :: bs, i + 1, h, hlen => by
    simp only [List.zipWith_cons_cons, List.getD_cons_succ]
    exact getD_zipWith f da db dc as bs i (by simpa using h) (by simpa using hlen)

/-- A successful instruction never changes the stored admin key. -/
theorem execIx_admin (c : Chain) (i : Instr) (c' : Chain) (evs : List Event)
    (h : execIx c i = .ok (c', evs)) :
    c'.programState.admin = c.programState.admin := by
  cases i <;>
    simp only [execIx, update_deposit, withdraw_funds, sign, sign_bidirectional,
      respond, respond_error, respond_bidirectional] at h <;>
    (repeat' split at h) <;>
    first
      | exact Except.noConfusion h
      | (simp only [Except.ok.injEq, Prod.mk.injEq] at h
         obtain ⟨h1, _⟩ := h
         subst h1
         rfl)

/-- No instruction changes the stored admin key. -/
theorem step_admin (c : Chain) (i : Instr) :
    (step c i).programState.admin = c.programState.admin := by
  unfold step
  split
  next c' evs h => exact execIx_admin c i c' evs h
  next => rfl

/-- No instruction sequence changes the stored admin key. -/
theorem run_admin (c : Chain) (is : List Instr) :
    (run c is).programState.admin = c.programState.admin := by
  induction is generalizing c with
  | nil => rfl
  | cons i is ih =>
    show (List.foldl step (step c i) is).programState.admin = _
    exact (ih (step c i)).trans (step_admin c i)

/-! ## Claims -/

/-- C3: an output whose first four bytes are `0xDE 0xAD 0xBE 0xEF` is
classified as failure by both documented classifiers regardless of all
subsequent bytes, and an output shorter than four bytes (in particular the
empty output) is classified as success. -/
theorem c3_outcome_classifier (rest output : List Nat) :
    is_error_response (MAGIC_ERROR ++ rest) = true ∧
    is_error (MAGIC_ERROR ++ rest) = true ∧
    (output.length < 4 →
      is_error_response output = false ∧ is_error output = false) := by
  refine ⟨?_, ?_, fun h => ⟨?_, ?_⟩⟩
  · simp [is_error_response, MAGIC_ERROR]
  · simp [is_error, starts_with, MAGIC_ERROR]
  · have : ¬ 4 ≤ output.length := by omega
    simp [is_error_response, this]
  · have ht : output.take 4 = output := List.take_of_length_le (by omega)
    have hne : ¬ output = [0xde, 0xad, 0xbe, 0xef] := fun he => by
      rw [he] at h
      simp at h
    simp [is_error, starts_with, MAGIC_ERROR, ht, hne]

/-- C3 witness: the classifiers at the concrete failure output
`de ad be ef 01 02` and the concrete two-byte output `00 01`. -/
theorem c3_outcome_classifier_witness :
    Signet.is_error_response [0xde, 0xad, 0xbe, 0xef, 0x01, 0x02] = true ∧
    Signet.is_error [0xde, 0xad, 0xbe, 0xef, 0x01, 0x02] = true ∧
    Signet.is_error_response [0x00, 0x01] = false ∧
    Signet.is_error [0x00, 0x01] = false := by
  have h := c3_outcome_classifier [0x01, 0x02] [0x00, 0x01]
  have hshort := h.2.2 (by decide)
  exact ⟨h.1, h.2.1, hshort.1, hshort.2⟩

/-- C6: an admin withdrawal of more than the pool balance fails with
`InsufficientFunds`; for any caller such a withdrawal leaves the whole chain
state (pool balance and every account balance) unchanged and emits
nothing. -/
theorem c6_insufficient_funds (c : Chain) (caller recipient : Pubkey) (amount : Nat)
    (hgt : c.poolLamports < amount) :
    step c (.withdrawFunds caller recipient amount) = c ∧
    eventsOf c (.withdrawFunds caller recipient amount) = [] ∧
    (caller = c.programState.admin →
      withdraw_funds c caller recipient amount = .error .InsufficientFunds) := by
  have hnot : ¬ c.poolLamports ≥ amount := by omega
  have hw : withdraw_funds c caller recipient amount =
      (if caller ≠ c.programState.admin then .error .Unauthorized
       else .error .InsufficientFunds) := by
    by_cases hc : caller ≠ c.programState.admin
    · simp [withdraw_funds, hc]
    · simp [withdraw_funds, hc, hnot]
  refine ⟨?_, ?_, fun hadm => ?_⟩
  · by_cases hc : caller ≠ c.programState.admin <;>
      simp [step, execIx, hw, hc]
  · by_cases hc : caller ≠ c.programState.admin <;>
      simp [eventsOf, execIx, hw, hc]
  · subst hadm
    simp [hw]

/-- C6 witness: withdrawing 60 from a pool of 50. -/
theorem c6_insufficient_funds_witness :
    Signet.step Signet.demoChain (.withdrawFunds 1 2 60) = Signet.demoChain ∧
    Signet.eventsOf Signet.demoChain (.withdrawFunds 1 2 60) = [] ∧
    Signet.withdraw_funds Signet.demoChain 1 2 60 =
      .error .InsufficientFunds := by
  have h := c6_insufficient_funds demoChain 1 2 60 (by decide)
  exact ⟨h.1, h.2.1, h.2.2 (by decide)⟩

/-- C7: a `sign_bidirectional` call with an empty serialized transaction and
a payer balance covering the deposit fails with `InvalidTransaction`: no
deposit moves (the chain state is unchanged) and no event is emitted. -/
theorem c7_empty_transaction (c : Chain) (requester : Pubkey)
    (fee_payer : Option Pubkey) (caip2_id : String) (key_version : Nat)
    (path algo dest params : String) (program_id : Pubkey) (os rs : List Nat)
    (hdep : c.programState.signature_deposit ≤
      c.lamports (payerOf fee_payer requester)) :
    sign_bidirectional c requester fee_payer [] caip2_id key_version
      path algo dest params program_id os rs = .error .InvalidTransaction ∧
    step c (.signBidirectionalReq requester fee_payer [] caip2_id key_version
      path algo dest params program_id os rs) = c ∧
    eventsOf c (.signBidirectionalReq requester fee_payer [] caip2_id key_version
      path algo dest params program_id os rs) = [] := by
  have h : sign_bidirectional c requester fee_payer [] caip2_id key_version
      path algo dest params program_id os rs = .error .InvalidTransaction := by
    simp [sign_bidirectional, hdep]
  refine ⟨h, ?_, ?_⟩
  · simp only [step, execIx, h]
  · simp only [eventsOf, execIx, h]

/-- C7 witness: empty transaction on a chain whose payer holds 100 ≥ 30. -/
theorem c7_empty_transaction_witness :
    Signet.sign_bidirectional Signet.demoChain 5 none [] "eip155:1" 0
      "" "" "" "" 9 [] [] = .error .InvalidTransaction ∧
    Signet.step Signet.demoChain (.signBidirectionalReq 5 none [] "eip155:1" 0
      "" "" "" "" 9 [] []) = Signet.demoChain ∧
    Signet.eventsOf Signet.demoChain (.signBidirectionalReq 5 none [] "eip155:1" 0
      "" "" "" "" 9 [] []) = [] := by
  exact c7_empty_transaction demoChain 5 none "eip155:1" 0 "" "" "" "" 9 [] []
    (by decide)

/-- C9: when the payer balance is below the required deposit and the
serialized transaction is empty, `sign_bidirectional` reports
`InsufficientDeposit`: the deposit check precedes the non-empty-transaction
check. -/
theorem c9_deposit_checked_first (c : Chain) (requester : Pubkey)
    (fee_payer : Option Pubkey) (caip2_id : String) (key_version : Nat)
    (path algo dest params : String) (program_id : Pubkey) (os rs : List Nat)
    (hlt : c.lamports (payerOf fee_payer requester) <
      c.programState.signature_deposit) :
    sign_bidirectional c requester fee_payer [] caip2_id key_version
      path algo dest params program_id os rs = .error .InsufficientDeposit := by
  have hnot : ¬ c.lamports (payerOf fee_payer requester) ≥
      c.programState.signature_deposit := by omega
  simp [sign_bidirectional, hnot]

/-- C9 witness: payer balance 10 below deposit 30, empty transaction. -/
theorem c9_deposit_checked_first_witness :
    Signet.sign_bidirectional Signet.poorChain 5 none [] "eip155:1" 0
      "" "" "" "" 9 [] [] = .error .InsufficientDeposit := by
  exact c9_deposit_checked_first poorChain 5 none "eip155:1" 0 "" "" "" "" 9 [] []
    (by decide)

/-- C1: every successful `sign` or `sign_bidirectional` request moves exactly
the currently configured `signature_deposit` from the resolved payer (the
`fee_payer` account when supplied, the requester otherwise) to the pool: the
pool balance after equals the pool balance before plus the deposit, and the
payer balance decreases by exactly the deposit. -/
theorem c1_deposit_transfer (c : Chain) (requester : Pubkey)
    (fee_payer : Option Pubkey) (payload : List Nat) (key_version : Nat)
    (path algo dest params : String) (tx : List Nat) (caip2_id : String)
    (program_id : Pubkey) (os rs : List Nat) (c₁ c₂ : Chain)
    (evs₁ evs₂ : List Event) :
    (sign c requester fee_payer payload key_version path algo dest params =
        .ok (c₁, evs₁) →
      c₁.poolLamports = c.poolLamports + c.programState.signature_deposit ∧
      c.lamports (payerOf fee_payer requester) =
        c₁.lamports (payerOf fee_payer requester) +
          c.programState.signature_deposit) ∧
    (sign_bidirectional c requester fee_payer tx caip2_id key_version path algo
        dest params program_id os rs = .ok (c₂, evs₂) →
      c₂.poolLamports = c.poolLamports + c.programState.signature_deposit ∧
      c.lamports (payerOf fee_payer requester) =
        c₂.lamports (payerOf fee_payer requester) +
          c.programState.signature_deposit) := by
  constructor
  · intro h
    simp only [sign] at h
    split at h
    · exact Except.noConfusion h
    next hge =>
      have hge' : c.programState.signature_deposit ≤
          c.lamports (payerOf fee_payer requester) := not_not.mp hge
      simp only [Except.ok.injEq, Prod.mk.injEq] at h
      obtain ⟨h1, _⟩ := h
      subst h1
      refine ⟨rfl, ?_⟩
      simp
      omega
  · intro h
    simp only [sign_bidirectional] at h
    split at h
    · exact Except.noConfusion h
    next hge =>
      have hge' : c.programState.signature_deposit ≤
          c.lamports (payerOf fee_payer requester) := not_not.mp hge
      split at h
      · exact Except.noConfusion h
      simp only [Except.ok.injEq, Prod.mk.injEq] at h
      obtain ⟨h1, _⟩ := h
      subst h1
      refine ⟨rfl, ?_⟩
      simp
      omega

/-- C1 witness: on `demoChain` (deposit 30, pool 50, every balance 100), a
`sign` and a `sign_bidirectional` request by account 5 each move exactly 30
lamports from the payer to the pool. -/
theorem c1_deposit_transfer_witness :
    (Signet.step Signet.demoChain
        (.signReq 5 none [] 0 "" "" "" "")).poolLamports =
      Signet.demoChain.poolLamports +
        Signet.demoChain.programState.signature_deposit ∧
    Signet.demoChain.lamports 5 =
      (Signet.step Signet.demoChain
          (.signReq 5 none [] 0 "" "" "" "")).lamports 5 +
        Signet.demoChain.programState.signature_deposit ∧
    (Signet.step Signet.demoChain
        (.signBidirectionalReq 5 none [1] "eip155:1" 0 "" "" "" "" 9 [] [])).poolLamports =
      Signet.demoChain.poolLamports +
        Signet.demoChain.programState.signature_deposit ∧
    Signet.demoChain.lamports 5 =
      (Signet.step Signet.demoChain
          (.signBidirectionalReq 5 none [1] "eip155:1" 0 "" "" "" "" 9 [] [])).lamports 5 +
        Signet.demoChain.programState.signature_deposit := by
  have h := c1_deposit_transfer demoChain 5 none [] 0 "" "" "" "" [1] "eip155:1"
    9 [] []
    (step demoChain (.signReq 5 none [] 0 "" "" "" ""))
    (step demoChain (.signBidirectionalReq 5 none [1] "eip155:1" 0 "" "" "" "" 9 [] []))
    (eventsOf demoChain (.signReq 5 none [] 0 "" "" "" ""))
    (eventsOf demoChain (.signBidirectionalReq 5 none [1] "eip155:1" 0 "" "" "" "" 9 [] []))
  obtain ⟨h1, h2⟩ := h
  have ha := h1 rfl
  have hb := h2 rfl
  exact ⟨ha.1, ha.2, hb.1, hb.2⟩

/-- C2: a `respond` batch with arrays of unequal length fails with
`InvalidInputLength` and emits nothing; with equal lengths it succeeds and
emits exactly one `SignatureRespondedEvent` per `(request_id, signature)`
pair, in the input order. -/
theorem c2_respond_batch (c : Chain) (responder : Pubkey)
    (request_ids : List (List Nat)) (signatures : List Signature) :
    (request_ids.length ≠ signatures.length →
      respond c responder request_ids signatures = .error .InvalidInputLength ∧
      eventsOf c (.respondIx responder request_ids signatures) = []) ∧
    (request_ids.length = signatures.length →
      respond c responder request_ids signatures =
        .ok (c, List.zipWith
          (fun rid sig => Event.SignatureResponded rid responder sig)
          request_ids signatures) ∧
      (eventsOf c (.respondIx responder request_ids signatures)).length =
        request_ids.length ∧
      ∀ i, i < request_ids.length →
        (eventsOf c (.respondIx responder request_ids signatures)).getD i
            (.DepositUpdated 0 0) =
          .SignatureResponded (request_ids.getD i []) responder
            (signatures.getD i default)) := by
  constructor
  · intro hne
    have hr : respond c responder request_ids signatures =
        .error .InvalidInputLength := by
      simp [respond, hne]
    exact ⟨hr, by simp [eventsOf, execIx, hr]⟩
  · intro hlen
    have hr : respond c responder request_ids signatures =
        .ok (c, List.zipWith
          (fun rid sig => Event.SignatureResponded rid responder sig)
          request_ids signatures) := by
      simp [respond, hlen]
    have hev : eventsOf c (.respondIx responder request_ids signatures) =
        List.zipWith (fun rid sig => Event.SignatureResponded rid responder sig)
          request_ids signatures := by
      simp [eventsOf, execIx, hr]
    refine ⟨hr, ?_, ?_⟩
    · rw [hev, List.length_zipWith, hlen, Nat.min_self]
    · intro i hi
      rw [hev]
      exact getD_zipWith (fun rid sig => Event.SignatureResponded rid responder sig)
        [] default (Event.DepositUpdated 0 0) request_ids signatures i hi hlen

/-- C2 witness: a 3-identifier, 2-signature batch fails with
`InvalidInputLength` and emits nothing; a matched 2-2 batch emits exactly the
two events, in order. -/
theorem c2_respond_batch_witness :
    Signet.respond Signet.demoChain 3 [[1], [2], [3]]
      [Signet.demoSigA, Signet.demoSigB] = .error .InvalidInputLength ∧
    Signet.eventsOf Signet.demoChain
      (.respondIx 3 [[1], [2], [3]] [Signet.demoSigA, Signet.demoSigB]) = [] ∧
    (Signet.eventsOf Signet.demoChain
      (.respondIx 3 [[1], [2]] [Signet.demoSigA, Signet.demoSigB])).length = 2 ∧
    (Signet.eventsOf Signet.demoChain
        (.respondIx 3 [[1], [2]] [Signet.demoSigA, Signet.demoSigB])).getD 0
        (.DepositUpdated 0 0) =
      .SignatureResponded [1] 3 Signet.demoSigA ∧
    (Signet.eventsOf Signet.demoChain
        (.respondIx 3 [[1], [2]] [Signet.demoSigA, Signet.demoSigB])).getD 1
        (.DepositUpdated 0 0) =
      .SignatureResponded [2] 3 Signet.demoSigB := by
  have hmis := (c2_respond_batch demoChain 3 [[1], [2], [3]]
    [demoSigA, demoSigB]).1 (by decide)
  have hok := (c2_respond_batch demoChain 3 [[1], [2]]
    [demoSigA, demoSigB]).2 rfl
  exact ⟨hmis.1, hmis.2, hok.2.1, hok.2.2 0 (by decide), hok.2.2 1 (by decide)⟩

/-- C5 counterexample: with pool balance 50, an admin withdrawal of 60 to the
zero recipient fails with `InsufficientFunds`, not `InvalidRecipient` — the
funds check runs before the recipient check. -/
theorem c5_counterexample :
    Signet.withdraw_funds Signet.demoChain 1 0 60 =
      .error .InsufficientFunds ∧
    Signet.withdraw_funds Signet.demoChain 1 0 60 ≠
      .error .InvalidRecipient := by
  have h : Signet.withdraw_funds Signet.demoChain 1 0 60 =
      .error .InsufficientFunds := rfl
  refine ⟨h, fun hbad => ?_⟩
  rw [h] at hbad
  exact ChainSignaturesError.noConfusion (Except.error.inj hbad)

/-- C5 amended: an admin `withdraw_funds` call with the zero recipient always
fails, changes no balances and emits nothing; the error is `InvalidRecipient`
when the pool covers the amount and `InsufficientFunds` otherwise. -/
theorem c5_zero_recipient (c : Chain) (caller : Pubkey) (amount : Nat)
    (hadm : caller = c.programState.admin) :
    (amount ≤ c.poolLamports →
      withdraw_funds c caller 0 amount = .error .InvalidRecipient) ∧
    (c.poolLamports < amount →
      withdraw_funds c caller 0 amount = .error .InsufficientFunds) ∧
    step c (.withdrawFunds caller 0 amount) = c ∧
    eventsOf c (.withdrawFunds caller 0 amount) = [] := by
  subst hadm
  refine ⟨fun hle => ?_, fun hgt => ?_, ?_, ?_⟩
  · have hge : c.poolLamports ≥ amount := hle
    simp [withdraw_funds, hge]
  · have hnot : ¬ c.poolLamports ≥ amount := by omega
    simp [withdraw_funds, hnot]
  · by_cases hge : c.poolLamports ≥ amount
    · have hw : withdraw_funds c c.programState.admin 0 amount =
          .error .InvalidRecipient := by simp [withdraw_funds, hge]
      simp [step, execIx, hw]
    · have hw : withdraw_funds c c.programState.admin 0 amount =
          .error .InsufficientFunds := by simp [withdraw_funds, hge]
      simp [step, execIx, hw]
  · by_cases hge : c.poolLamports ≥ amount
    · have hw : withdraw_funds c c.programState.admin 0 amount =
          .error .InvalidRecipient := by simp [withdraw_funds, hge]
      simp [eventsOf, execIx, hw]
    · have hw : withdraw_funds c c.programState.admin 0 amount =
          .error .InsufficientFunds := by simp [withdraw_funds, hge]
      simp [eventsOf, execIx, hw]

/-- C5 amended witness: admin withdrawal of 20 ≤ 50 to the zero recipient on
`demoChain` fails with `InvalidRecipient`, changes nothing, emits nothing. -/
theorem c5_zero_recipient_witness :
    Signet.withdraw_funds Signet.demoChain 1 0 20 =
      .error .InvalidRecipient ∧
    Signet.step Signet.demoChain (.withdrawFunds 1 0 20) = Signet.demoChain ∧
    Signet.eventsOf Signet.demoChain (.withdrawFunds 1 0 20) = [] := by
  have h := c5_zero_recipient demoChain 1 20 rfl
  exact ⟨h.1 (by decide), h.2.2.1, h.2.2.2⟩

/-- C8: the admin identity recorded at initialization is unchanged by every
subsequent sequence of instructions: in every reachable state,
`programState.admin` equals the admin supplied to `initialize`. -/
theorem c8_admin_immutable (admin : Pubkey) (deposit : Nat) (chain_id : String)
    (pool : Nat) (lamports : Pubkey → Nat) (is : List Instr) :
    (run (initializeProgram admin deposit chain_id pool lamports)
      is).programState.admin = admin :=
  (run_admin _ is).trans rfl

/-- C10: the admin may set the required deposit to 0 (`update_deposit` places
no lower bound), and afterwards every `sign` request succeeds for every payer
balance and transfers exactly 0 lamports: the pool and the payer balance are
unchanged. -/
theorem c10_zero_deposit (c : Chain) (requester : Pubkey)
    (fee_payer : Option Pubkey) (payload : List Nat) (key_version : Nat)
    (path algo dest params : String) :
    (execIx c (.updateDeposit c.programState.admin 0)).isOk = true ∧
    (step c (.updateDeposit c.programState.admin 0)).programState.signature_deposit
      = 0 ∧
    (execIx (step c (.updateDeposit c.programState.admin 0))
      (.signReq requester fee_payer payload key_version path algo dest
        params)).isOk = true ∧
    (step (step c (.updateDeposit c.programState.admin 0))
        (.signReq requester fee_payer payload key_version path algo dest
          params)).poolLamports =
      (step c (.updateDeposit c.programState.admin 0)).poolLamports ∧
    (step (step c (.updateDeposit c.programState.admin 0))
        (.signReq requester fee_payer payload key_version path algo dest
          params)).lamports (payerOf fee_payer requester) =
      (step c (.updateDeposit c.programState.admin 0)).lamports
        (payerOf fee_payer requester) := by
  have hu : update_deposit c c.programState.admin 0 =
      .ok ({ c with programState :=
              { c.programState with signature_deposit := 0 } },
           [.DepositUpdated c.programState.signature_deposit 0]) := by
    simp [update_deposit]
  have hstep : step c (.updateDeposit c.programState.admin 0) =
      { c with programState := { c.programState with signature_deposit := 0 } } := by
    simp [step, execIx, hu]
  refine ⟨by simp [execIx, hu, Except.isOk, Except.toBool], by rw [hstep],
    ?_, ?_, ?_⟩ <;>
    rw [hstep] <;>
    simp [step, execIx, sign, Except.isOk, Except.toBool]

/-- C4: the request identifier is a pure, deterministic function of the
request's field tuple, and changing any one field (with the others fixed)
changes the packed hash input `encodeRequest`, hence the 256-bit identifier
with overwhelming probability (under collision resistance of keccak-256,
which is the precise content of "overwhelming probability" here). -/
theorem c4_request_id_pure_and_sensitive
    (sender tx caip2 path algo dest params : List Nat) (kv : Nat)
    (sender' tx' caip2' path' algo' dest' params' : List Nat) (kv' : Nat) :
    (sender = sender' → tx = tx' → caip2 = caip2' → kv = kv' → path = path' →
      algo = algo' → dest = dest' → params = params' →
      generate_request_id sender tx caip2 kv path algo dest params =
        generate_request_id sender' tx' caip2' kv' path' algo' dest' params') ∧
    (sender ≠ sender' →
      encodeRequest sender tx caip2 kv path algo dest params ≠
        encodeRequest sender' tx caip2 kv path algo dest params) ∧
    (tx ≠ tx' →
      encodeRequest sender tx caip2 kv path algo dest params ≠
        encodeRequest sender tx' caip2 kv path algo dest params) ∧
    (caip2 ≠ caip2' →
      encodeRequest sender tx caip2 kv path algo dest params ≠
        encodeRequest sender tx caip2' kv path algo dest params) ∧
    (kv ≠ kv' → kv < 2 ^ 32 → kv' < 2 ^ 32 →
      encodeRequest sender tx caip2 kv path algo dest params ≠
        encodeRequest sender tx caip2 kv' path algo dest params) ∧
    (path ≠ path' →
      encodeRequest sender tx caip2 kv path algo dest params ≠
        encodeRequest sender tx caip2 kv path' algo dest params) ∧
    (algo ≠ algo' →
      encodeRequest sender tx caip2 kv path algo dest params ≠
        encodeRequest sender tx caip2 kv path algo' dest params) ∧
    (dest ≠ dest' →
      encodeRequest sender tx caip2 kv path algo dest params ≠
        encodeRequest sender tx caip2 kv path algo dest' params) ∧
    (params ≠ params' →
      encodeRequest sender tx caip2 kv path algo dest params ≠
        encodeRequest sender tx caip2 kv path algo dest params') := by
  refine ⟨?_, ?_, ?_, ?_, ?_, ?_, ?_, ?_, ?_⟩
  · intro h1 h2 h3 h4 h5 h6 h7 h8
    subst h1; subst h2; subst h3; subst h4
    subst h5; subst h6; subst h7; subst h8
    rfl
  · intro hne heq
    simp only [encodeRequest, List.append_assoc] at heq
    exact hne (List.append_cancel_right heq)
  · intro hne heq
    simp only [encodeRequest, List.append_assoc] at heq
    exact hne (List.append_cancel_right (List.append_cancel_left heq))
  · intro hne heq
    simp only [encodeRequest, List.append_assoc] at heq
    exact hne (List.append_cancel_right
      (List.append_cancel_left (List.append_cancel_left heq)))
  · intro hne hk hk' heq
    simp only [encodeRequest, List.append_assoc] at heq
    exact hne (u32be_inj hk hk' (List.append_cancel_right
      (List.append_cancel_left (List.append_cancel_left
        (List.append_cancel_left heq)))))
  · intro hne heq
    simp only [encodeRequest, List.append_assoc] at heq
    exact hne (List.append_cancel_right
      (List.append_cancel_left (List.append_cancel_left
        (List.append_cancel_left (List.append_cancel_left heq)))))
  · intro hne heq
    simp only [encodeRequest, List.append_assoc] at heq
    exact hne (List.append_cancel_right
      (List.append_cancel_left (List.append_cancel_left
        (List.append_cancel_left (List.append_cancel_left
          (List.append_cancel_left heq))))))
  · intro hne heq
    simp only [encodeRequest, List.append_assoc] at heq
    exact hne (List.append_cancel_right
      (List.append_cancel_left (List.append_cancel_left
        (List.append_cancel_left (List.append_cancel_left
          (List.append_cancel_left (List.append_cancel_left heq)))))))
  · intro hne heq
    simp only [encodeRequest, List.append_assoc] at heq
    exact hne (List.append_cancel_left (List.append_cancel_left
      (List.append_cancel_left (List.append_cancel_left
        (List.append_cancel_left (List.append_cancel_left
          (List.append_cancel_left heq)))))))

/-- C4 witness: at concrete field values, identical inputs give an identical
identifier, and each single-field change gives a different packed hash
input. -/
theorem c4_request_id_pure_and_sensitive_witness :
    Signet.generate_request_id [1] [2] [3] 7 [4] [5] [6] [8] =
      Signet.generate_request_id [1] [2] [3] 7 [4] [5] [6] [8] ∧
    Signet.encodeRequest [1] [2] [3] 7 [4] [5] [6] [8] ≠
      Signet.encodeRequest [9] [2] [3] 7 [4] [5] [6] [8] ∧
    Signet.encodeRequest [1] [2] [3] 7 [4] [5] [6] [8] ≠
      Signet.encodeRequest [1] [10] [3] 7 [4] [5] [6] [8] ∧
    Signet.encodeRequest [1] [2] [3] 7 [4] [5] [6] [8] ≠
      Signet.encodeRequest [1] [2] [11] 7 [4] [5] [6] [8] ∧
    Signet.encodeRequest [1] [2] [3] 7 [4] [5] [6] [8] ≠
      Signet.encodeRequest [1] [2] [3] 19 [4] [5] [6] [8] ∧
    Signet.encodeRequest [1] [2] [3] 7 [4] [5] [6] [8] ≠
      Signet.encodeRequest [1] [2] [3] 7 [12] [5] [6] [8] ∧
    Signet.encodeRequest [1] [2] [3] 7 [4] [5] [6] [8] ≠
      Signet.encodeRequest [1] [2] [3] 7 [4] [13] [6] [8] ∧
    Signet.encodeRequest [1] [2] [3] 7 [4] [5] [6] [8] ≠
      Signet.encodeRequest [1] [2] [3] 7 [4] [5] [14] [8] ∧
    Signet.encodeRequest [1] [2] [3] 7 [4] [5] [6] [8] ≠
      Signet.encodeRequest [1] [2] [3] 7 [4] [5] [6] [15] := by
  have hd := c4_request_id_pure_and_sensitive [1] [2] [3] [4] [5] [6] [8] 7
    [1] [2] [3] [4] [5] [6] [8] 7
  have h := c4_request_id_pure_and_sensitive [1] [2] [3] [4] [5] [6] [8] 7
    [9] [10] [11] [12] [13] [14] [15] 19
  exact ⟨hd.1 rfl rfl rfl rfl rfl rfl rfl rfl,
    h.2.1 (by decide), h.2.2.1 (by decide), h.2.2.2.1 (by decide),
    h.2.2.2.2.1 (by decide) (by decide) (by decide),
    h.2.2.2.2.2.1 (by decide), h.2.2.2.2.2.2.1 (by decide),
    h.2.2.2.2.2.2.2.1 (by decide), h.2.2.2.2.2.2.2.2 (by decide)⟩

end Signet
